import Mathlib

/-!
Verification of the Orbital AMM mathematical core (`src/OrbitalHelper.rs`).

The Rust source works on `U256` values (unsigned 256-bit integers) using only
saturating or guarded arithmetic, plain truncating division, and fixed-point
scaling by `PRECISION = 10^15`.  We embed it shallowly: a `U256` value is a
`Nat` (callers pass values `< 2^256`), `saturating_add`/`saturating_mul`
saturate at `U256MAX = 2^256 - 1`, `saturating_sub` is truncated `Nat`
subtraction, and `Result`/`Option` returns become `Except`/`Option`.
Every definition mirrors the corresponding Rust function line by line.
-/

namespace Orbital

def U256MAX : Nat := 2 ^ 256 - 1

def TOKENS_COUNT : Nat := 5

def PRECISION : Nat := 1000000000000000

def SQRT5_SCALED : Nat := 2236067977499790

def TOLERANCE_FACTOR : Nat := 100000000

def EPSILON_SCALED : Nat := 1000000000000

def TINY_SCALED : Nat := 1000000

def MAX_SAFE_MULTIPLY : Nat := 2 ^ 128 - 1

def MAX_ITERATIONS_SQRT : Nat := 64

def MAX_NEWTON_ITERATIONS : Nat := 100

def CONVERGENCE_THRESHOLD : Nat := 1000

/-- Typed errors of the core (`enum MathError`). -/
inductive MathError where
  | InvalidArrayLength
  | InsufficientLiquidity
  | ConvergenceError
  | InvalidTokenIndex
  | NegativeSqrt
deriving DecidableEq, Repr

instance : DecidableEq (Except MathError Nat) := fun x y =>
  match x, y with
  | .ok a, .ok b =>
    if h : a = b then isTrue (by rw [h]) else isFalse (by simp [h])
  | .error a, .error b =>
    if h : a = b then isTrue (by rw [h]) else isFalse (by simp [h])
  | .ok _, .error _ => isFalse (by simp)
  | .error _, .ok _ => isFalse (by simp)

/-- `U256::saturating_add`. -/
def satAdd (a b : Nat) : Nat := min (a + b) U256MAX

/-- `U256::saturating_sub` (Nat subtraction already truncates at 0). -/
def satSub (a b : Nat) : Nat := a - b

/-- `U256::saturating_mul`. -/
def satMul (a b : Nat) : Nat := min (a * b) U256MAX

/-- `safe_mul`: multiplication guarded against exceeding `MAX_SAFE_MULTIPLY`. -/
def safe_mul (a b : Nat) : Option Nat :=
  if a = 0 ∨ b = 0 then some 0
  else if MAX_SAFE_MULTIPLY / b < a then none
  else some (satMul a b)

/-- `mul_fixed`: fixed-point multiply `(a*b)/PRECISION`; on a failed guard it
falls back to a coarser-scaled approximation. -/
def mul_fixed (a b : Nat) : Nat :=
  match safe_mul a b with
  | some product => product / PRECISION
  | none =>
    satMul (satMul (a / 1000000) (b / 1000000)) 1000000000000 / PRECISION

/-- `div_fixed`: fixed-point divide `(a*PRECISION)/b`; `0` when `b = 0`; a
scaled fallback when the numerator guard fails. -/
def div_fixed (a b : Nat) : Nat :=
  if b = 0 then 0
  else if a ≤ MAX_SAFE_MULTIPLY / PRECISION then satMul a PRECISION / b
  else satMul (a / 1000000) (PRECISION / 1000000) / b

/-- The Newton loop of `sqrt_fixed`, with the loop bound as explicit fuel.
State `(z, y)` mirrors the two mutable locals; one constructor step is one
pass of the `for` loop. -/
def sqrtIter (x : Nat) : Nat → Nat → Nat → Nat
  | 0, z, _ => z
  | fuel + 1, z, y =>
    if z ≤ y then z
    else if y = 0 then 0
    else sqrtIter x fuel y (satAdd (div_fixed x y) y / 2)

/-- `sqrt_fixed`: fixed-point square root via bounded Newton iteration. -/
def sqrt_fixed (x : Nat) : Nat :=
  if x = 0 then 0
  else if x = PRECISION then PRECISION
  else if x < PRECISION then sqrtIter x MAX_ITERATIONS_SQRT x PRECISION
  else sqrtIter x MAX_ITERATIONS_SQRT x (satAdd x PRECISION / 2)

/-- `abs_fixed` (identity on unsigned values). -/
def abs_fixed (x : Nat) : Nat := x

/-- `max_fixed`. -/
def max_fixed (a b : Nat) : Nat := if b ≤ a then a else b

/-- `min_fixed`. -/
def min_fixed (a b : Nat) : Nat := if a ≤ b then a else b

/-- `calculateRadius`: the fold over the tick's reserve vector accumulating
`sum_squares`, then the fixed-point square root. -/
def calculateRadius (reserves : List Nat) : Nat :=
  if reserves.isEmpty then 0
  else sqrt_fixed (reserves.foldl (fun acc r => satAdd acc (mul_fixed r r)) 0)

/-- Rendering of the closed form the specification ascribes to
`calculateRadius`, namely `reserve / (1 - 1/sqrt(5))`, written with the same
fixed-point primitives; used only to compare against the source definition. -/
def calculateRadiusClosedForm (reserve : Nat) : Nat :=
  div_fixed reserve (PRECISION - div_fixed PRECISION SQRT5_SCALED)

/-- `calculateBoundaryTickS`: `s = sqrt(r^2 - (k - r/sqrt(5))^2)` with a
clamp to `0` when the radicand is not positive. -/
def calculateBoundaryTickS (r k : Nat) : Nat :=
  if r = 0 then 0
  else
    let r_scaled := mul_fixed r PRECISION
    let r_over_sqrt_n := div_fixed r_scaled SQRT5_SCALED
    let diff := if r_over_sqrt_n ≤ k then k - r_over_sqrt_n else r_over_sqrt_n - k
    let diff_squared := mul_fixed diff diff
    let r_squared := mul_fixed r r
    if r_squared ≤ diff_squared then 0
    else sqrt_fixed (r_squared - diff_squared)

/-- `compute_torus_invariant_fixed`: the torus invariant
`term1 + term2` over the consolidated data and the reserve vector. -/
def compute_torus_invariant_fixed (sum_interior_reserves interior_consolidated_radius
    boundary_consolidated_radius boundary_total_k_bound : Nat)
    (total_reserves : List Nat) : Except MathError Nat :=
  if total_reserves.length ≠ TOKENS_COUNT then .error .InvalidArrayLength
  else
    let one_over_sqrt_n := div_fixed PRECISION SQRT5_SCALED
    let term1_a := mul_fixed sum_interior_reserves one_over_sqrt_n
    let r_int_times_sqrt5 := mul_fixed interior_consolidated_radius SQRT5_SCALED
    let term1_b := satAdd boundary_total_k_bound r_int_times_sqrt5
    let term1_diff := if term1_b ≤ term1_a then term1_a - term1_b else 0
    let term1 := mul_fixed term1_diff term1_diff
    let sums := total_reserves.foldl
      (fun acc r => (satAdd acc.1 r, satAdd acc.2 (mul_fixed r r))) (0, 0)
    let sum_squared := mul_fixed sums.1 sums.1
    let mean_squared := div_fixed sum_squared TOKENS_COUNT
    let variance_term := if mean_squared ≤ sums.2 then sums.2 - mean_squared else 0
    let sqrt_term := sqrt_fixed variance_term
    let term2_diff :=
      if boundary_consolidated_radius ≤ sqrt_term then sqrt_term - boundary_consolidated_radius
      else 0
    let term2 := mul_fixed term2_diff term2_diff
    .ok (satAdd term1 term2)

/-- `validate_inputs`: the hard input-validation gate of `solveTorusInvariant`. -/
def validate_inputs (total_reserves : List Nat) (token_in_idx token_out_idx
    amount_in_after_fee sum_interior_reserves boundary_consolidated_radius : Nat) : Bool :=
  if TOKENS_COUNT ≤ token_in_idx ∨ TOKENS_COUNT ≤ token_out_idx then false
  else if token_in_idx = token_out_idx then false
  else if total_reserves.length ≠ TOKENS_COUNT then false
  else if amount_in_after_fee = 0 then false
  else if sum_interior_reserves = 0 ∧ boundary_consolidated_radius = 0 then false
  else if total_reserves.any (fun r => MAX_SAFE_MULTIPLY ≤ r ∨ r = 0) then false
  else if mul_fixed (total_reserves.foldl max 0) 10 < amount_in_after_fee then false
  else true

/-- `calculate_initial_guess`: constant-product seed, clamped. -/
def calculate_initial_guess (amount_in r_in r_out : Nat) : Option Nat :=
  if r_in = 0 ∨ r_out = 0 then none
  else
    match safe_mul amount_in r_out with
    | none => none
    | some numerator =>
      let denominator := satAdd r_in amount_in
      if denominator = 0 then none
      else
        let guess := div_fixed numerator denominator
        let guess := if guess = 0 then div_fixed amount_in 100 else guess
        let max_output := mul_fixed r_out 95 / 100
        some (if max_output ≤ guess then max_output else guess)

/-- `safe_evaluate_function`: the residual `f(y)` of the Newton iteration,
encoded as in the source (`PRECISION` added to mark a nonnegative residual). -/
def safe_evaluate_function (y : Nat) (total_reserves : List Nat)
    (token_in_idx token_out_idx amount_in sum_interior_reserves
     interior_consolidated_radius boundary_consolidated_radius
     boundary_total_k_bound initial_invariant : Nat) : Option Nat :=
  if y = 0 ∨ total_reserves.getD token_out_idx 0 ≤ y then none
  else
    let nr := total_reserves.set token_in_idx
      (satAdd (total_reserves.getD token_in_idx 0) amount_in)
    if nr.getD token_out_idx 0 < y then none
    else
      let nr := nr.set token_out_idx (satSub (nr.getD token_out_idx 0) y)
      if nr.any (fun r => MAX_SAFE_MULTIPLY ≤ r) then none
      else
        match compute_torus_invariant_fixed sum_interior_reserves
            interior_consolidated_radius boundary_consolidated_radius
            boundary_total_k_bound nr with
        | .ok new_invariant =>
          if initial_invariant ≤ new_invariant then
            some (satAdd (satSub new_invariant initial_invariant) PRECISION)
          else some (satSub initial_invariant new_invariant)
        | .error _ => none

/-- `central_difference_derivative`. -/
def central_difference_derivative (y eps : Nat) (total_reserves : List Nat)
    (i_in i_out amt s_int r_int r_bnd k_bnd init_inv : Nat) : Option Nat :=
  let y_plus := satAdd y eps
  if y < eps then none
  else
    let y_minus := satSub y eps
    match safe_evaluate_function y_plus total_reserves i_in i_out amt s_int r_int r_bnd k_bnd init_inv with
    | none => none
    | some f_plus =>
      match safe_evaluate_function y_minus total_reserves i_in i_out amt s_int r_int r_bnd k_bnd init_inv with
      | none => none
      | some f_minus =>
        let f_diff := if f_minus ≤ f_plus then satSub f_plus f_minus else satSub f_minus f_plus
        let two_eps := satMul eps 2
        if two_eps = 0 then none else some (div_fixed f_diff two_eps)

/-- `forward_difference_derivative`. -/
def forward_difference_derivative (y eps : Nat) (total_reserves : List Nat)
    (i_in i_out amt s_int r_int r_bnd k_bnd init_inv : Nat) : Option Nat :=
  let y_plus := satAdd y eps
  match safe_evaluate_function y total_reserves i_in i_out amt s_int r_int r_bnd k_bnd init_inv with
  | none => none
  | some f_y =>
    match safe_evaluate_function y_plus total_reserves i_in i_out amt s_int r_int r_bnd k_bnd init_inv with
    | none => none
    | some f_plus =>
      let f_diff := if f_y ≤ f_plus then satSub f_plus f_y else satSub f_y f_plus
      if eps = 0 then none else some (div_fixed f_diff eps)

/-- `calculate_robust_derivative`: central difference, falling back to a
forward difference with a smaller step. -/
def calculate_robust_derivative (y : Nat) (total_reserves : List Nat)
    (i_in i_out amt s_int r_int r_bnd k_bnd init_inv : Nat) : Option Nat :=
  let base_eps := max_fixed (mul_fixed y EPSILON_SCALED / 1000) TINY_SCALED
  match central_difference_derivative y base_eps total_reserves i_in i_out amt s_int r_int r_bnd k_bnd init_inv with
  | some deriv =>
    if TINY_SCALED < deriv then some deriv
    else forward_difference_derivative y (base_eps / 10) total_reserves i_in i_out amt s_int r_int r_bnd k_bnd init_inv
  | none =>
    forward_difference_derivative y (base_eps / 10) total_reserves i_in i_out amt s_int r_int r_bnd k_bnd init_inv

/-- `calculate_adaptive_tolerance`. -/
def calculate_adaptive_tolerance (invariant : Nat) : Nat :=
  max_fixed (div_fixed invariant TOLERANCE_FACTOR) CONVERGENCE_THRESHOLD

/-- `calculate_adaptive_step`. -/
def calculate_adaptive_step (f_y derivative trust_radius iteration : Nat) : Nat :=
  let newton_step := div_fixed (abs_fixed f_y) derivative
  let max_step := if iteration < 10 then trust_radius else trust_radius / 2
  min_fixed newton_step max_step

/-- `update_y_with_bounds`. -/
def update_y_with_bounds (y f_y step_size r_out : Nat) : Nat :=
  let new_y :=
    if PRECISION ≤ f_y then (if step_size ≤ y then satSub y step_size else TINY_SCALED)
    else satAdd y step_size
  let max_output := mul_fixed r_out 98 / 100
  if new_y = 0 then TINY_SCALED
  else if max_output ≤ new_y then max_output
  else new_y

/-- `adjust_trust_radius`. -/
def adjust_trust_radius (current_radius iteration failures : Nat) : Nat :=
  if 0 < failures then current_radius / 2
  else if iteration < 20 then mul_fixed current_radius 11 / 10
  else current_radius

/-- `validate_final_result`. -/
def validate_final_result (y r_out : Nat) : Option Nat :=
  if y = 0 ∨ r_out ≤ y then none
  else if mul_fixed r_out 99 / 100 < y then none
  else some y

/-- `fallback_constant_product`: constant-product quote with the intended
safety haircut. -/
def fallback_constant_product (amount_in r_in r_out : Nat) : Nat :=
  if r_in = 0 ∨ r_out = 0 then 0
  else
    let numerator := mul_fixed amount_in r_out
    let denominator := satAdd r_in amount_in
    if denominator = 0 then 0
    else
      let result := div_fixed numerator denominator
      mul_fixed result 95 / 100

/-- The `new_y` candidate of one gradient-descent pass. -/
def gdNewY (current_y f_y step_size : Nat) : Nat :=
  if PRECISION ≤ f_y then
    (if step_size ≤ current_y then satSub current_y step_size else TINY_SCALED)
  else satAdd current_y step_size

/-- The per-iteration tolerance of the Newton loop (relaxed before
iteration 20). -/
def newton_current_tolerance (base_tolerance iteration : Nat) : Nat :=
  if iteration < 20 then mul_fixed base_tolerance 5 else base_tolerance

/-- The loop of `gradient_descent_fallback`, fuel = remaining passes of the
`for` loop; `step_size` is the mutable step. -/
def gdLoop (current_y f_y r_out : Nat) (total_reserves : List Nat)
    (i_in i_out amt s_int r_int r_bnd k_bnd init_inv : Nat) :
    Nat → Nat → Option Nat
  | 0, _ => none
  | fuel + 1, step_size =>
    let new_y := gdNewY current_y f_y step_size
    if new_y = 0 ∨ r_out ≤ new_y then
      let step' := step_size / 2
      if step' < TINY_SCALED then none
      else gdLoop current_y f_y r_out total_reserves i_in i_out amt s_int r_int r_bnd k_bnd init_inv fuel step'
    else
      match safe_evaluate_function new_y total_reserves i_in i_out amt s_int r_int r_bnd k_bnd init_inv with
      | some new_f_y =>
        if abs_fixed new_f_y < abs_fixed f_y then some new_y
        else
          let step' := step_size / 2
          if step' < TINY_SCALED then none
          else gdLoop current_y f_y r_out total_reserves i_in i_out amt s_int r_int r_bnd k_bnd init_inv fuel step'
      | none =>
        let step' := step_size / 2
        if step' < TINY_SCALED then none
        else gdLoop current_y f_y r_out total_reserves i_in i_out amt s_int r_int r_bnd k_bnd init_inv fuel step'

/-- `gradient_descent_fallback` (the `max_gd_iterations = 20` bound). -/
def gradient_descent_fallback (y f_y step_size r_out : Nat) (_iteration : Nat)
    (total_reserves : List Nat)
    (i_in i_out amt s_int r_int r_bnd k_bnd init_inv : Nat) : Option Nat :=
  gdLoop y f_y r_out total_reserves i_in i_out amt s_int r_int r_bnd k_bnd init_inv 20 step_size

/-- The `for iteration in 0..MAX_NEWTON_ITERATIONS` loop of
`solve_newton_with_fallbacks`; fuel counts remaining passes and
`iteration = MAX_NEWTON_ITERATIONS - fuel`. -/
def newtonLoop (total_reserves : List Nat)
    (i_in i_out amt s_int r_int r_bnd k_bnd init_inv r_out base_tolerance : Nat) :
    Nat → Nat → Nat → Nat → Nat → Option Nat
  | 0, _, _, _, _ => none
  | fuel + 1, iteration, y, trust_radius, consecutive_failures =>
    let tol := newton_current_tolerance base_tolerance iteration
    match safe_evaluate_function y total_reserves i_in i_out amt s_int r_int r_bnd k_bnd init_inv with
    | none =>
      if 3 < consecutive_failures + 1 then none
      else newtonLoop total_reserves i_in i_out amt s_int r_int r_bnd k_bnd init_inv r_out base_tolerance
        fuel (iteration + 1) (mul_fixed y 9 / 10) trust_radius (consecutive_failures + 1)
    | some f_y =>
      if abs_fixed f_y ≤ tol then validate_final_result y r_out
      else
        match calculate_robust_derivative y total_reserves i_in i_out amt s_int r_int r_bnd k_bnd init_inv with
        | some deriv =>
          if TINY_SCALED < deriv then
            let step_size := calculate_adaptive_step f_y deriv trust_radius iteration
            let y' := update_y_with_bounds y f_y step_size r_out
            let trust' := adjust_trust_radius trust_radius iteration consecutive_failures
            newtonLoop total_reserves i_in i_out amt s_int r_int r_bnd k_bnd init_inv r_out base_tolerance
              fuel (iteration + 1) y' trust' 0
          else
            gradient_descent_fallback y f_y trust_radius r_out iteration total_reserves
              i_in i_out amt s_int r_int r_bnd k_bnd init_inv
        | none =>
          gradient_descent_fallback y f_y trust_radius r_out iteration total_reserves
            i_in i_out amt s_int r_int r_bnd k_bnd init_inv

/-- `solve_newton_with_fallbacks`. -/
def solve_newton_with_fallbacks (initial_guess : Nat) (total_reserves : List Nat)
    (i_in i_out amt s_int r_int r_bnd k_bnd init_inv r_out : Nat) : Option Nat :=
  let base_tolerance := calculate_adaptive_tolerance init_inv
  let trust_radius := div_fixed initial_guess 4
  newtonLoop total_reserves i_in i_out amt s_int r_int r_bnd k_bnd init_inv r_out base_tolerance
    MAX_NEWTON_ITERATIONS 0 initial_guess trust_radius 0

/-- `solveTorusInvariant`: the public entry point, returning the amount out
(or `0` on any validation or liquidity failure). -/
def solveTorusInvariant (sum_interior_reserves interior_consolidated_radius
    boundary_consolidated_radius boundary_total_k_bound
    token_in_index token_out_index amount_in_after_fee : Nat)
    (total_reserves : List Nat) : Nat :=
  if ¬ validate_inputs total_reserves token_in_index token_out_index
      amount_in_after_fee sum_interior_reserves boundary_consolidated_radius then 0
  else
    match compute_torus_invariant_fixed sum_interior_reserves interior_consolidated_radius
        boundary_consolidated_radius boundary_total_k_bound total_reserves with
    | .error _ => 0
    | .ok initial_invariant =>
      if initial_invariant = 0 then 0
      else
        let r_in := total_reserves.getD token_in_index 0
        let r_out := total_reserves.getD token_out_index 0
        match calculate_initial_guess amount_in_after_fee r_in r_out with
        | none => 0
        | some initial_guess =>
          match solve_newton_with_fallbacks initial_guess total_reserves
              token_in_index token_out_index amount_in_after_fee
              sum_interior_reserves interior_consolidated_radius
              boundary_consolidated_radius boundary_total_k_bound
              initial_invariant r_out with
          | some result => result
          | none => fallback_constant_product amount_in_after_fee r_in r_out

/-- The local `diff` variable of `calculateBoundaryTickS`:
the fixed-point rendering of `|k - r/sqrt(5)|`. -/
def boundary_diff (r k : Nat) : Nat :=
  let r_over_sqrt_n := div_fixed (mul_fixed r PRECISION) SQRT5_SCALED
  if r_over_sqrt_n ≤ k then k - r_over_sqrt_n else r_over_sqrt_n - k

/-- Rendering of the specification's formula for the invariant evaluator:
`term1 + term2` with `term1 = max(0, Σx_int/sqrt(5) - k_bound - r_int*sqrt(5))^2`
and `term2 = max(0, sqrt(Σx_i^2 - (Σx_i)^2/5) - r_bound)^2`, the clamps
written with an explicit `max 0` over the integers and the sums as plain
list sums; to be compared with `compute_torus_invariant_fixed`. -/
def torus_invariant_spec_form (s_int r_int r_bnd k_bnd : Nat)
    (reserves : List Nat) : Nat :=
  let one_over_sqrt_n := div_fixed PRECISION SQRT5_SCALED
  let term1_diff : Nat := Int.toNat (max 0 ((mul_fixed s_int one_over_sqrt_n : Int) -
    ((k_bnd : Int) + (mul_fixed r_int SQRT5_SCALED : Int))))
  let term1 := mul_fixed term1_diff term1_diff
  let sum_total := reserves.sum
  let sum_squares := (reserves.map (fun r => mul_fixed r r)).sum
  let variance : Nat := Int.toNat (max 0 ((sum_squares : Int) -
    (div_fixed (mul_fixed sum_total sum_total) TOKENS_COUNT : Int)))
  let term2_diff : Nat := Int.toNat (max 0 ((sqrt_fixed variance : Int) - (r_bnd : Int)))
  let term2 := mul_fixed term2_diff term2_diff
  term1 + term2

/-- Instrumented twin of `sqrtIter` returning `(result, loop passes taken)`. -/
def sqrtIterSteps (x : Nat) : Nat → Nat → Nat → Nat × Nat
  | 0, z, _ => (z, 0)
  | fuel + 1, z, y =>
    if z ≤ y then (z, 1)
    else if y = 0 then (0, 1)
    else
      let r := sqrtIterSteps x fuel y (satAdd (div_fixed x y) y / 2)
      (r.1, r.2 + 1)

/-- Instrumented twin of `gdLoop` returning `(result, loop passes taken)`. -/
def gdLoopSteps (current_y f_y r_out : Nat) (total_reserves : List Nat)
    (i_in i_out amt s_int r_int r_bnd k_bnd init_inv : Nat) :
    Nat → Nat → Option Nat × Nat
  | 0, _ => (none, 0)
  | fuel + 1, step_size =>
    let new_y := gdNewY current_y f_y step_size
    if new_y = 0 ∨ r_out ≤ new_y then
      let step' := step_size / 2
      if step' < TINY_SCALED then (none, 1)
      else
        let r := gdLoopSteps current_y f_y r_out total_reserves i_in i_out amt s_int r_int r_bnd k_bnd init_inv fuel step'
        (r.1, r.2 + 1)
    else
      match safe_evaluate_function new_y total_reserves i_in i_out amt s_int r_int r_bnd k_bnd init_inv with
      | some new_f_y =>
        if abs_fixed new_f_y < abs_fixed f_y then (some new_y, 1)
        else
          let step' := step_size / 2
          if step' < TINY_SCALED then (none, 1)
          else
            let r := gdLoopSteps current_y f_y r_out total_reserves i_in i_out amt s_int r_int r_bnd k_bnd init_inv fuel step'
            (r.1, r.2 + 1)
      | none =>
        let step' := step_size / 2
        if step' < TINY_SCALED then (none, 1)
        else
          let r := gdLoopSteps current_y f_y r_out total_reserves i_in i_out amt s_int r_int r_bnd k_bnd init_inv fuel step'
          (r.1, r.2 + 1)

/-- Instrumented twin of `newtonLoop` returning `(result, loop passes taken)`. -/
def newtonLoopSteps (total_reserves : List Nat)
    (i_in i_out amt s_int r_int r_bnd k_bnd init_inv r_out base_tolerance : Nat) :
    Nat → Nat → Nat → Nat → Nat → Option Nat × Nat
  | 0, _, _, _, _ => (none, 0)
  | fuel + 1, iteration, y, trust_radius, consecutive_failures =>
    let tol := newton_current_tolerance base_tolerance iteration
    match safe_evaluate_function y total_reserves i_in i_out amt s_int r_int r_bnd k_bnd init_inv with
    | none =>
      if 3 < consecutive_failures + 1 then (none, 1)
      else
        let r := newtonLoopSteps total_reserves i_in i_out amt s_int r_int r_bnd k_bnd init_inv r_out base_tolerance
          fuel (iteration + 1) (mul_fixed y 9 / 10) trust_radius (consecutive_failures + 1)
        (r.1, r.2 + 1)
    | some f_y =>
      if abs_fixed f_y ≤ tol then (validate_final_result y r_out, 1)
      else
        match calculate_robust_derivative y total_reserves i_in i_out amt s_int r_int r_bnd k_bnd init_inv with
        | some deriv =>
          if TINY_SCALED < deriv then
            let step_size := calculate_adaptive_step f_y deriv trust_radius iteration
            let y' := update_y_with_bounds y f_y step_size r_out
            let trust' := adjust_trust_radius trust_radius iteration consecutive_failures
            let r := newtonLoopSteps total_reserves i_in i_out amt s_int r_int r_bnd k_bnd init_inv r_out base_tolerance
              fuel (iteration + 1) y' trust' 0
            (r.1, r.2 + 1)
          else
            (gradient_descent_fallback y f_y trust_radius r_out iteration total_reserves
              i_in i_out amt s_int r_int r_bnd k_bnd init_inv, 1)
        | none =>
          (gradient_descent_fallback y f_y trust_radius r_out iteration total_reserves
            i_in i_out amt s_int r_int r_bnd k_bnd init_inv, 1)

theorem safe_mul_le {a b p : Nat} (h : safe_mul a b = some p) : p ≤ U256MAX := by
  unfold safe_mul at h
  split at h
  · cases h; exact Nat.zero_le _
  · split at h
    · cases h
    · cases h; exact min_le_right _ _

theorem mul_fixed_le (a b : Nat) : mul_fixed a b ≤ U256MAX / PRECISION := by
  unfold mul_fixed
  cases h : safe_mul a b with
  | some p => exact Nat.div_le_div_right (safe_mul_le h)
  | none => exact Nat.div_le_div_right (min_le_right _ _)

theorem mul_fixed_exact (a b : Nat) (h : a * b ≤ MAX_SAFE_MULTIPLY) :
    mul_fixed a b = a * b / PRECISION := by
  have hms : MAX_SAFE_MULTIPLY ≤ U256MAX := by decide
  unfold mul_fixed safe_mul
  by_cases hz : a = 0 ∨ b = 0
  · rw [if_pos hz]
    rcases hz with h0 | h0 <;> simp [h0]
  · rw [if_neg hz]
    push_neg at hz
    have hb : 0 < b := Nat.pos_of_ne_zero hz.2
    have hle : a ≤ MAX_SAFE_MULTIPLY / b := (Nat.le_div_iff_mul_le hb).mpr h
    rw [if_neg (Nat.not_lt.mpr hle)]
    show satMul a b / PRECISION = a * b / PRECISION
    rw [satMul, min_eq_left (le_trans h hms)]

theorem mul_fixed_le_exact (a b : Nat) : mul_fixed a b ≤ a * b / PRECISION := by
  unfold mul_fixed safe_mul
  by_cases hz : a = 0 ∨ b = 0
  · rw [if_pos hz]
    rcases hz with h0 | h0 <;> simp [h0]
  · rw [if_neg hz]
    by_cases hg : MAX_SAFE_MULTIPLY / b < a
    · rw [if_pos hg]
      show satMul (satMul (a / 1000000) (b / 1000000)) 1000000000000 / PRECISION ≤ _
      refine Nat.div_le_div_right ?_
      calc satMul (satMul (a / 1000000) (b / 1000000)) 1000000000000
          ≤ satMul (a / 1000000) (b / 1000000) * 1000000000000 := min_le_left _ _
        _ ≤ (a * b / (1000000 * 1000000)) * 1000000000000 := by
            refine Nat.mul_le_mul_right _ (le_trans (min_le_left _ _) ?_)
            exact Nat.div_mul_div_le a 1000000 b 1000000
        _ ≤ a * b := by
            rw [show (1000000 * 1000000 : Nat) = 1000000000000 from rfl]
            exact Nat.div_mul_le_self _ _
    · rw [if_neg hg]
      show satMul a b / PRECISION ≤ _
      exact Nat.div_le_div_right (min_le_left _ _)

theorem div_fixed_exact (a b : Nat) (hb : b ≠ 0)
    (h : a * PRECISION ≤ MAX_SAFE_MULTIPLY) : div_fixed a b = a * PRECISION / b := by
  unfold div_fixed
  have hP : (0 : Nat) < PRECISION := by decide
  have hle : a ≤ MAX_SAFE_MULTIPLY / PRECISION := (Nat.le_div_iff_mul_le hP).mpr h
  have hms : MAX_SAFE_MULTIPLY ≤ U256MAX := by decide
  rw [if_neg hb, if_pos hle, satMul, min_eq_left (le_trans h hms)]

theorem div_fixed_le (a b : Nat) : div_fixed a b ≤ a * PRECISION / b := by
  unfold div_fixed
  split
  · exact Nat.zero_le _
  · split
    · exact Nat.div_le_div_right (min_le_left _ _)
    · refine Nat.div_le_div_right (le_trans (min_le_left _ _) ?_)
      calc a / 1000000 * (PRECISION / 1000000)
          ≤ a * PRECISION / (1000000 * 1000000) := Nat.div_mul_div_le _ _ _ _
        _ ≤ a * PRECISION := Nat.div_le_self _ _

theorem div_fixed_zero (a : Nat) : div_fixed a 0 = 0 := rfl

theorem sqrtIter_enter (x fuel z y : Nat) (h : z ≤ y) :
    sqrtIter x (fuel + 1) z y = z := by
  simp [sqrtIter, h]

/-- Claim C1 (code bug evidence): on the specification's representative
balanced-pool input — five reserves of `1000 * PRECISION`, amount in
`10 * PRECISION`, token indices 0 and 1, consolidated data with a positive
initial invariant — `solveTorusInvariant` returns `0` rather than an output
near `10 * PRECISION`: `validate_inputs` computes its relative-size bound as
`mul_fixed(max_reserve, 10) = 10000` raw units (the raw constant `10` is
divided by `PRECISION`), so the trade is rejected as "too large". -/
theorem claim_C1_representative_input_rejected :
    solveTorusInvariant (5000 * PRECISION) PRECISION PRECISION PRECISION 0 1
      (10 * PRECISION) [1000 * PRECISION, 1000 * PRECISION, 1000 * PRECISION,
        1000 * PRECISION, 1000 * PRECISION] = 0 ∧
    compute_torus_invariant_fixed (5000 * PRECISION) PRECISION PRECISION PRECISION
      [1000 * PRECISION, 1000 * PRECISION, 1000 * PRECISION, 1000 * PRECISION,
        1000 * PRECISION] = .ok 4985538336180934446246 ∧
    mul_fixed (1000 * PRECISION) 10 = 10000 := by decide

/-- Claim C2 (counterexample): for reserve vectors of length `N - 1` and
`N + 1` the public `solveTorusInvariant` returns the numeric value `0`; no
typed `InvalidArrayLength` error reaches the caller. -/
theorem claim_C2_counterexample :
    solveTorusInvariant 1 1 1 1 0 1 PRECISION
      [PRECISION, PRECISION, PRECISION, PRECISION] = 0 ∧
    solveTorusInvariant 1 1 1 1 0 1 PRECISION
      [PRECISION, PRECISION, PRECISION, PRECISION, PRECISION, PRECISION] = 0 := by decide

theorem validate_inputs_false_of_length {reserves : List Nat}
    (h : reserves.length ≠ TOKENS_COUNT) (iIn iOut amt s rb : Nat) :
    validate_inputs reserves iIn iOut amt s rb = false := by
  unfold validate_inputs
  split_ifs <;> simp_all

/-- Claim C2 (amended): a reserve vector whose length is not `TOKENS_COUNT`
makes `solveTorusInvariant` return `0` (the validation gate fails, no quote
is computed); the typed `InvalidArrayLength` error exists only in the
internal invariant evaluator, which does report it for such vectors. -/
theorem claim_C2_wrong_length_returns_zero (s ri rb kb iIn iOut amt : Nat)
    (reserves : List Nat) (h : reserves.length ≠ TOKENS_COUNT) :
    solveTorusInvariant s ri rb kb iIn iOut amt reserves = 0 ∧
    compute_torus_invariant_fixed s ri rb kb reserves = .error .InvalidArrayLength := by
  constructor
  · unfold solveTorusInvariant
    rw [validate_inputs_false_of_length h]
    simp
  · unfold compute_torus_invariant_fixed
    rw [if_pos h]

theorem claim_C2_witness :
    solveTorusInvariant 2 3 4 5 0 1 6 [7, 8, 9] = 0 ∧
    compute_torus_invariant_fixed 2 3 4 5 [7, 8, 9] = .error .InvalidArrayLength :=
  claim_C2_wrong_length_returns_zero 2 3 4 5 0 1 6 [7, 8, 9] (by decide)

/-- Claim C3 (counterexample): at the reserve value `PRECISION` (1.0) the
source `calculateRadius` — which takes the reserve *vector* and returns
`sqrt_fixed` of the sum of squared reserves — yields `PRECISION`, while the
closed form `reserve / (1 - 1/sqrt(5))` claimed by the specification yields
`1809016994374944`; the two disagree and the source uses the iterative
square root, not a single divide. -/
theorem claim_C3_counterexample :
    calculateRadius [PRECISION] = PRECISION ∧
    calculateRadiusClosedForm PRECISION = 1809016994374944 := by decide

theorem foldl_satAdd_eq_sum (l : List Nat) (acc : Nat)
    (h : acc + l.sum ≤ U256MAX) : l.foldl satAdd acc = acc + l.sum := by
  induction l generalizing acc with
  | nil => simp
  | cons hd tl ih =>
    simp only [List.foldl_cons, List.sum_cons] at *
    have h1 : satAdd acc hd = acc + hd := by rw [satAdd]; exact min_eq_left (by omega)
    rw [h1, ih (acc + hd) (by omega)]
    omega

/-- Claim C3 (amended): `calculateRadius` applied to a nonempty reserve
vector (of any sane length) returns the fixed-point square root of the sum
of the fixed-point squares of the reserves, `sqrt_fixed (Σ mul_fixed r r)`,
computed by the bounded Newton iteration — not the closed form
`reserve / (1 - 1/sqrt(5))`. -/
theorem claim_C3_radius_is_sqrt_sum_squares (reserves : List Nat)
    (hne : reserves ≠ []) (hlen : reserves.length ≤ 1000000) :
    calculateRadius reserves =
      sqrt_fixed ((reserves.map (fun r => mul_fixed r r)).sum) := by
  unfold calculateRadius
  rw [if_neg (by simpa using hne)]
  congr 1
  have hmap : reserves.foldl (fun acc r => satAdd acc (mul_fixed r r)) 0 =
      (reserves.map (fun r => mul_fixed r r)).foldl satAdd 0 := by
    rw [List.foldl_map]
  rw [hmap, foldl_satAdd_eq_sum _ 0 ?_, Nat.zero_add]
  have hbound : ∀ x ∈ reserves.map (fun r => mul_fixed r r), x ≤ U256MAX / PRECISION := by
    intro x hx
    rcases List.mem_map.mp hx with ⟨r, _, rfl⟩
    exact mul_fixed_le r r
  calc 0 + (reserves.map (fun r => mul_fixed r r)).sum
      = (reserves.map (fun r => mul_fixed r r)).sum := Nat.zero_add _
    _ ≤ (reserves.map (fun r => mul_fixed r r)).length • (U256MAX / PRECISION) :=
        List.sum_le_card_nsmul _ _ hbound
    _ = reserves.length * (U256MAX / PRECISION) := by
        rw [List.length_map, smul_eq_mul]
    _ ≤ 1000000 * (U256MAX / PRECISION) := Nat.mul_le_mul_right _ hlen
    _ ≤ U256MAX := by decide

theorem claim_C3_witness :
    calculateRadius [PRECISION, PRECISION] = 1414213562373095 := by
  have h := claim_C3_radius_is_sqrt_sum_squares [PRECISION, PRECISION]
    (by decide) (by decide)
  rw [h]; decide

/-- Claim C4 (counterexample): `mul_fixed` is a total function with no error
channel; at `a = 10^24 + 1`, `b = PRECISION` the overflow guard fails and it
silently returns the coarser-scaled approximation `10^24`, while the exact
truncated result `(a*b)/PRECISION` is `10^24 + 1` — neither exact (within one
unit of truncation the claim allows: the true real-valued product is
`10^24 + 1` exactly) nor a reported failure. -/
theorem claim_C4_counterexample :
    mul_fixed (10 ^ 24 + 1) PRECISION = 10 ^ 24 ∧
    (10 ^ 24 + 1) * PRECISION / PRECISION = 10 ^ 24 + 1 := by decide

/-- Claim C4 (amended): `mul_fixed`/`div_fixed` never report failures. They
return the exact truncated result only while the `MAX_SAFE_MULTIPLY`
(`2^128 - 1`) guard holds; past it they silently fall back to a lossy
rescaled approximation (and `div_fixed` of anything by zero returns `0`). -/
theorem claim_C4_exact_within_guard_else_approx (a b : Nat) :
    (a * b ≤ MAX_SAFE_MULTIPLY → mul_fixed a b = a * b / PRECISION) ∧
    (b ≠ 0 → a * PRECISION ≤ MAX_SAFE_MULTIPLY → div_fixed a b = a * PRECISION / b) ∧
    (MAX_SAFE_MULTIPLY < a * b → a ≠ 0 → b ≠ 0 →
      mul_fixed a b =
        satMul (satMul (a / 1000000) (b / 1000000)) 1000000000000 / PRECISION) := by
  refine ⟨mul_fixed_exact a b, div_fixed_exact a b, ?_⟩
  intro hlt ha hb
  unfold mul_fixed safe_mul
  have hb' : 0 < b := Nat.pos_of_ne_zero hb
  have : MAX_SAFE_MULTIPLY / b < a := by
    by_contra hc
    exact absurd ((Nat.le_div_iff_mul_le hb').mp (Nat.le_of_not_lt hc)) (Nat.not_le.mpr hlt)
  simp only [ha, hb, or_self, if_false, this, if_pos]

theorem claim_C4_witness :
    mul_fixed 2 PRECISION = 2 ∧ div_fixed 3 2 = 1500000000000000 := by
  constructor
  · rw [(claim_C4_exact_within_guard_else_approx 2 PRECISION).1 (by decide)]
    decide
  · rw [(claim_C4_exact_within_guard_else_approx 3 2).2.1 (by decide) (by decide)]
    decide

/-- Claim C5 (counterexample): `div_fixed 7 0` returns the numeric default
`0`; there is no `DivisionByZero` variant anywhere in `MathError` and
`div_fixed` has no error channel at all. -/
theorem claim_C5_counterexample : div_fixed 7 0 = 0 := by decide

/-- Claim C5 (amended): for every `a`, division by zero returns the numeric
default `0` instead of failing with a typed error. -/
theorem claim_C5_div_by_zero_returns_zero (a : Nat) : div_fixed a 0 = 0 :=
  div_fixed_zero a

/-- Claim C7 (counterexample): both non-trivial parts of the claim fail.
`sqrt_fixed 2 = 2` and `mul_fixed 2 2 = 0`, so `sqrt(x)^2` differs from
`x = 2` by two units; and `sqrt_fixed` is not monotonic: one past the
`div_fixed` overflow-guard boundary `MAX_SAFE_MULTIPLY / PRECISION` the
iteration silently loses a `10^12` scale factor and the result collapses
from `2^64 - 1` to about `1.8 * 10^13`. -/
theorem claim_C7_counterexample :
    (sqrt_fixed 2 = 2 ∧ mul_fixed (sqrt_fixed 2) (sqrt_fixed 2) = 0) ∧
    (sqrt_fixed 340282366920938463463374 = 18446744073709551615 ∧
     sqrt_fixed 340282366920938463463375 = 18446744073709) := by decide

/-- Claim C7 (amended): `sqrt_fixed 0 = 0` holds; on the whole range
`x ≤ PRECISION` the function is the identity (the first Newton check exits
immediately), hence monotonic there; global monotonicity and the
one-unit accuracy bound both fail (see the counterexample). -/
theorem claim_C7_sqrt_zero_and_low_range : sqrt_fixed 0 = 0 ∧
    (∀ x, x ≤ PRECISION → sqrt_fixed x = x) ∧
    (∀ x1 x2, x1 ≤ x2 → x2 ≤ PRECISION → sqrt_fixed x1 ≤ sqrt_fixed x2) := by
  have hid : ∀ x, x ≤ PRECISION → sqrt_fixed x = x := by
    intro x hx
    rcases Nat.lt_or_ge x PRECISION with hlt | hge
    · by_cases h0 : x = 0
      · rw [h0]; decide
      · unfold sqrt_fixed
        rw [if_neg h0, if_neg (by omega), if_pos hlt,
          show MAX_ITERATIONS_SQRT = 63 + 1 from rfl,
          sqrtIter_enter _ _ _ _ (le_of_lt hlt)]
    · have hxp : x = PRECISION := le_antisymm hx hge
      rw [hxp]; decide
  refine ⟨hid 0 (by decide), hid, ?_⟩
  intro x1 x2 h12 h2
  rw [hid x1 (le_trans h12 h2), hid x2 h2]
  exact h12

/-- Claim C6 (counterexample): at `r = 2^64 - 1` and
`k = 26696378816180740213` the fixed-point `|k - r/sqrt(5)|` is
`2^64 ≥ r`, yet `calculateBoundaryTickS` returns `20351001465`, not `0`:
squaring `2^64` takes the lossy `mul_fixed` overflow fallback, which is not
monotone, so `diff^2` comes out *below* `r^2`. -/
theorem claim_C6_counterexample :
    calculateBoundaryTickS (2 ^ 64 - 1) 26696378816180740213 = 20351001465 ∧
    2 ^ 64 - 1 ≤ boundary_diff (2 ^ 64 - 1) 26696378816180740213 := by decide

/-- Claim C6 (amended): with `diff` the fixed-point `|k - r/sqrt(5)|`,
`calculateBoundaryTickS` returns `0` whenever `r ≤ diff` *provided*
`diff * diff` stays within the exact-multiplication guard
`MAX_SAFE_MULTIPLY`; and whenever the squared quantities satisfy
`diff^2 < r^2` (the positive-radicand case) it returns
`sqrt_fixed (r^2 - diff^2)`. Beyond the guard the zero-clamp can fail
(see the counterexample). -/
theorem claim_C6_boundary_zero_and_sqrt (r k : Nat) :
    (r ≤ boundary_diff r k → boundary_diff r k * boundary_diff r k ≤ MAX_SAFE_MULTIPLY →
      calculateBoundaryTickS r k = 0) ∧
    (r ≠ 0 → mul_fixed (boundary_diff r k) (boundary_diff r k) < mul_fixed r r →
      calculateBoundaryTickS r k =
        sqrt_fixed (mul_fixed r r - mul_fixed (boundary_diff r k) (boundary_diff r k))) := by
  constructor
  · intro hrd hdd
    by_cases h0 : r = 0
    · unfold calculateBoundaryTickS
      rw [if_pos h0]
    · have hrr : r * r ≤ MAX_SAFE_MULTIPLY :=
        le_trans (Nat.mul_le_mul hrd hrd) hdd
      have hle : mul_fixed r r ≤ mul_fixed (boundary_diff r k) (boundary_diff r k) := by
        rw [mul_fixed_exact _ _ hdd, mul_fixed_exact _ _ hrr]
        exact Nat.div_le_div_right (Nat.mul_le_mul hrd hrd)
      unfold calculateBoundaryTickS
      rw [if_neg h0]
      show (if mul_fixed r r ≤ mul_fixed (boundary_diff r k) (boundary_diff r k) then 0
        else sqrt_fixed (mul_fixed r r - mul_fixed (boundary_diff r k) (boundary_diff r k))) = 0
      rw [if_pos hle]
  · intro h0 hlt
    unfold calculateBoundaryTickS
    rw [if_neg h0]
    show (if mul_fixed r r ≤ mul_fixed (boundary_diff r k) (boundary_diff r k) then 0
      else sqrt_fixed (mul_fixed r r - mul_fixed (boundary_diff r k) (boundary_diff r k))) = _
    rw [if_neg (Nat.not_le.mpr hlt)]

theorem claim_C6_witness :
    calculateBoundaryTickS (10 ^ 16) (10 ^ 17) = 0 ∧
    calculateBoundaryTickS (10 ^ 16) 4472135954999578 = 10 ^ 16 := by
  constructor
  · exact (claim_C6_boundary_zero_and_sqrt (10 ^ 16) (10 ^ 17)).1 (by decide) (by decide)
  · rw [(claim_C6_boundary_zero_and_sqrt (10 ^ 16) 4472135954999578).2
      (by decide) (by decide)]
    decide

theorem claim_C7_witness :
    sqrt_fixed 123456 = 123456 ∧ sqrt_fixed 5 ≤ sqrt_fixed 7 := by
  exact ⟨claim_C7_sqrt_zero_and_low_range.2.1 123456 (by decide),
    claim_C7_sqrt_zero_and_low_range.2.2 5 7 (by decide) (by decide)⟩

theorem clamp_eq_toNat (a b : Nat) :
    (if b ≤ a then a - b else 0) = Int.toNat (max 0 ((a : Int) - (b : Int))) := by
  split <;> omega

theorem foldl_pair_split (l : List Nat) (a b : Nat) :
    l.foldl (fun acc r => (satAdd acc.1 r, satAdd acc.2 (mul_fixed r r))) (a, b) =
    (l.foldl (fun x r => satAdd x r) a, l.foldl (fun x r => satAdd x (mul_fixed r r)) b) := by
  induction l generalizing a b with
  | nil => rfl
  | cons hd tl ih => simp only [List.foldl_cons, ih]

/-- Claim C8: for every consolidated tuple, every 5-entry reserve vector
within the `U256`-validated magnitude range, and every non-saturating
`k_bound`, the invariant evaluator returns exactly the specification's
`term1 + term2` with both raw differences clamped at zero
(`max 0` over the integers). -/
theorem claim_C8_invariant_term1_plus_term2
    (s_int r_int r_bnd k_bnd : Nat) (reserves : List Nat)
    (hlen : reserves.length = TOKENS_COUNT)
    (hres : ∀ r ∈ reserves, r < 2 ^ 128)
    (hk : k_bnd ≤ 2 ^ 250) :
    compute_torus_invariant_fixed s_int r_int r_bnd k_bnd reserves =
      .ok (torus_invariant_spec_form s_int r_int r_bnd k_bnd reserves) := by
  have hmaxP : U256MAX / PRECISION ≤ U256MAX := Nat.div_le_self _ _
  have hsum : reserves.foldl (fun x r => satAdd x r) 0 = reserves.sum := by
    have : reserves.sum ≤ reserves.length • (2 ^ 128 - 1) :=
      List.sum_le_card_nsmul _ _ (fun x hx => by have := hres x hx; omega)
    rw [show reserves.foldl (fun x r => satAdd x r) 0 = reserves.foldl satAdd 0 from rfl,
      foldl_satAdd_eq_sum _ 0 ?_, Nat.zero_add]
    rw [hlen] at this
    simp only [smul_eq_mul] at this
    have hb : TOKENS_COUNT * (2 ^ 128 - 1) ≤ U256MAX := by decide
    omega
  have hsq : reserves.foldl (fun x r => satAdd x (mul_fixed r r)) 0 =
      (reserves.map (fun r => mul_fixed r r)).sum := by
    rw [← List.foldl_map (fun r => mul_fixed r r) satAdd,
      foldl_satAdd_eq_sum _ 0 ?_, Nat.zero_add]
    have : (reserves.map (fun r => mul_fixed r r)).sum ≤
        (reserves.map (fun r => mul_fixed r r)).length • (U256MAX / PRECISION) :=
      List.sum_le_card_nsmul _ _ (by
        intro x hx
        rcases List.mem_map.mp hx with ⟨r, _, rfl⟩
        exact mul_fixed_le r r)
    rw [List.length_map, hlen] at this
    simp only [smul_eq_mul] at this
    have hb : TOKENS_COUNT * (U256MAX / PRECISION) ≤ U256MAX := by decide
    omega
  have hterm1b : satAdd k_bnd (mul_fixed r_int SQRT5_SCALED) =
      k_bnd + mul_fixed r_int SQRT5_SCALED := by
    rw [satAdd]
    refine min_eq_left ?_
    have := mul_fixed_le r_int SQRT5_SCALED
    have hb : 2 ^ 250 + U256MAX / PRECISION ≤ U256MAX := by decide
    omega
  have hfin : ∀ a b c d : Nat,
      satAdd (mul_fixed a b) (mul_fixed c d) = mul_fixed a b + mul_fixed c d := by
    intro a b c d
    rw [satAdd]
    refine min_eq_left ?_
    have h1 := mul_fixed_le a b
    have h2 := mul_fixed_le c d
    have hb : U256MAX / PRECISION + U256MAX / PRECISION ≤ U256MAX := by decide
    omega
  unfold compute_torus_invariant_fixed torus_invariant_spec_form
  rw [if_neg (by omega)]
  simp only [foldl_pair_split, hsum, hsq, hterm1b, hfin, clamp_eq_toNat, Nat.cast_add]

theorem claim_C8_witness :
    compute_torus_invariant_fixed (7000 * PRECISION) (2 * PRECISION) (3 * PRECISION)
      (5 * PRECISION) [PRECISION, 2 * PRECISION, 3 * PRECISION, 4 * PRECISION,
        5 * PRECISION] =
      .ok (torus_invariant_spec_form (7000 * PRECISION) (2 * PRECISION) (3 * PRECISION)
        (5 * PRECISION) [PRECISION, 2 * PRECISION, 3 * PRECISION, 4 * PRECISION,
          5 * PRECISION]) ∧
    torus_invariant_spec_form (7000 * PRECISION) (2 * PRECISION) (3 * PRECISION)
      (5 * PRECISION) [PRECISION, 2 * PRECISION, 3 * PRECISION, 4 * PRECISION,
        5 * PRECISION] = 9740784769674511894970 :=
  ⟨claim_C8_invariant_term1_plus_term2 (7000 * PRECISION) (2 * PRECISION) (3 * PRECISION)
      (5 * PRECISION) _ (by decide) (by decide) (by decide),
    by decide⟩

theorem sqrtIterSteps_spec (x : Nat) : ∀ fuel z y,
    (sqrtIterSteps x fuel z y).1 = sqrtIter x fuel z y ∧
    (sqrtIterSteps x fuel z y).2 ≤ fuel := by
  intro fuel
  induction fuel with
  | zero => intro z y; exact ⟨rfl, le_refl 0⟩
  | succ n ih =>
    intro z y
    simp only [sqrtIterSteps, sqrtIter]
    split
    · exact ⟨rfl, by omega⟩
    · split
      · exact ⟨rfl, by omega⟩
      · rcases ih y (satAdd (div_fixed x y) y / 2) with ⟨h1, h2⟩
        exact ⟨h1, by omega⟩

theorem gdLoopSteps_spec (cy fy ro : Nat) (rs : List Nat)
    (a b c d e f g h : Nat) : ∀ fuel step,
    (gdLoopSteps cy fy ro rs a b c d e f g h fuel step).1 =
      gdLoop cy fy ro rs a b c d e f g h fuel step ∧
    (gdLoopSteps cy fy ro rs a b c d e f g h fuel step).2 ≤ fuel := by
  intro fuel
  induction fuel with
  | zero => intro step; exact ⟨rfl, le_refl 0⟩
  | succ n ih =>
    intro step
    simp only [gdLoopSteps, gdLoop]
    split
    · split
      · exact ⟨rfl, by omega⟩
      · rcases ih (step / 2) with ⟨h1, h2⟩
        exact ⟨h1, by omega⟩
    · split
      · split
        · exact ⟨rfl, by omega⟩
        · split
          · exact ⟨rfl, by omega⟩
          · rcases ih (step / 2) with ⟨h1, h2⟩
            exact ⟨h1, by omega⟩
      · split
        · exact ⟨rfl, by omega⟩
        · rcases ih (step / 2) with ⟨h1, h2⟩
          exact ⟨h1, by omega⟩

theorem newtonLoopSteps_spec (rs : List Nat)
    (a b c d e f g h ro bt : Nat) : ∀ fuel it y tr cf,
    (newtonLoopSteps rs a b c d e f g h ro bt fuel it y tr cf).1 =
      newtonLoop rs a b c d e f g h ro bt fuel it y tr cf ∧
    (newtonLoopSteps rs a b c d e f g h ro bt fuel it y tr cf).2 ≤ fuel := by
  intro fuel
  induction fuel with
  | zero => intro it y tr cf; exact ⟨rfl, le_refl 0⟩
  | succ n ih =>
    intro it y tr cf
    simp only [newtonLoopSteps, newtonLoop]
    split
    · split
      · exact ⟨rfl, by omega⟩
      · rcases ih (it + 1) (mul_fixed y 9 / 10) tr (cf + 1) with ⟨h1, h2⟩
        exact ⟨h1, by omega⟩
    · split
      · exact ⟨rfl, by omega⟩
      · split
        · split
          · rcases ih (it + 1) _ _ 0 with ⟨h1, h2⟩
            exact ⟨h1, by omega⟩
          · exact ⟨rfl, by omega⟩
        · exact ⟨rfl, by omega⟩

/-- Claim C9: each of the three iterative routines runs a number of loop
passes bounded by its fixed configuration constant — `MAX_ITERATIONS_SQRT
= 64` for the square root, `MAX_NEWTON_ITERATIONS = 100` for the Newton
solver, and `20` for the gradient-descent fallback — for *every* input, and
in each case the instrumented computation returns exactly the value of the
original routine, so every call terminates deterministically within the
constant budget. -/
theorem claim_C9_iteration_budgets :
    (∀ x z y, (sqrtIterSteps x MAX_ITERATIONS_SQRT z y).2 ≤ MAX_ITERATIONS_SQRT ∧
      (sqrtIterSteps x MAX_ITERATIONS_SQRT z y).1 = sqrtIter x MAX_ITERATIONS_SQRT z y) ∧
    (∀ rs a b c d e f g h ro bt it y tr cf,
      (newtonLoopSteps rs a b c d e f g h ro bt MAX_NEWTON_ITERATIONS it y tr cf).2 ≤
        MAX_NEWTON_ITERATIONS ∧
      (newtonLoopSteps rs a b c d e f g h ro bt MAX_NEWTON_ITERATIONS it y tr cf).1 =
        newtonLoop rs a b c d e f g h ro bt MAX_NEWTON_ITERATIONS it y tr cf) ∧
    (∀ cy fy ro rs a b c d e f g h step,
      (gdLoopSteps cy fy ro rs a b c d e f g h 20 step).2 ≤ 20 ∧
      (gdLoopSteps cy fy ro rs a b c d e f g h 20 step).1 =
        gdLoop cy fy ro rs a b c d e f g h 20 step) := by
  refine ⟨fun x z y => ?_, fun rs a b c d e f g h ro bt it y tr cf => ?_,
    fun cy fy ro rs a b c d e f g h step => ?_⟩
  · rcases sqrtIterSteps_spec x MAX_ITERATIONS_SQRT z y with ⟨h1, h2⟩
    exact ⟨h2, h1⟩
  · rcases newtonLoopSteps_spec rs a b c d e f g h ro bt MAX_NEWTON_ITERATIONS it y tr cf with ⟨h1, h2⟩
    exact ⟨h2, h1⟩
  · rcases gdLoopSteps_spec cy fy ro rs a b c d e f g h 20 step with ⟨h1, h2⟩
    exact ⟨h2, h1⟩

theorem validate_final_lt (y r_out v : Nat)
    (h : validate_final_result y r_out = some v) : v < r_out := by
  unfold validate_final_result at h
  by_cases h1 : y = 0 ∨ r_out ≤ y
  · rw [if_pos h1] at h
    exact absurd h (by simp)
  · rw [if_neg h1] at h
    by_cases h2 : mul_fixed r_out 99 / 100 < y
    · rw [if_pos h2] at h
      exact absurd h (by simp)
    · rw [if_neg h2] at h
      have hy := Option.some.inj h
      omega

theorem gdLoop_some_lt (cy fy ro : Nat) (rs : List Nat) (a b c d e f g h : Nat) :
    ∀ fuel step v,
    gdLoop cy fy ro rs a b c d e f g h fuel step = some v → v < ro := by
  intro fuel
  induction fuel with
  | zero => intro step v hv; exact absurd hv (by simp [gdLoop])
  | succ n ih =>
    intro step v hv
    simp only [gdLoop] at hv
    split at hv
    · split at hv
      · exact absurd hv (by simp)
      · exact ih _ _ hv
    · rename_i hbounds
      split at hv
      · split at hv
        · have := Option.some.inj hv
          omega
        · split at hv
          · exact absurd hv (by simp)
          · exact ih _ _ hv
      · split at hv
        · exact absurd hv (by simp)
        · exact ih _ _ hv

theorem newtonLoop_some_lt (rs : List Nat) (a b c d e f g h ro bt : Nat) :
    ∀ fuel it y tr cf v,
    newtonLoop rs a b c d e f g h ro bt fuel it y tr cf = some v → v < ro := by
  intro fuel
  induction fuel with
  | zero => intro it y tr cf v hv; exact absurd hv (by simp [newtonLoop])
  | succ n ih =>
    intro it y tr cf v hv
    simp only [newtonLoop] at hv
    split at hv
    · split at hv
      · exact absurd hv (by simp)
      · exact ih _ _ _ _ _ hv
    · split at hv
      · exact validate_final_lt _ _ _ hv
      · split at hv
        · split at hv
          · exact ih _ _ _ _ _ hv
          · simp only [gradient_descent_fallback] at hv
            exact gdLoop_some_lt _ _ _ _ _ _ _ _ _ _ _ _ _ _ _ hv
        · simp only [gradient_descent_fallback] at hv
          exact gdLoop_some_lt _ _ _ _ _ _ _ _ _ _ _ _ _ _ _ hv

theorem fallback_constant_product_lt (amt r_in r_out : Nat)
    (h0 : amt ≠ 0) (hM : amt ≤ U256MAX) :
    fallback_constant_product amt r_in r_out = 0 ∨
    fallback_constant_product amt r_in r_out < r_out := by
  simp only [fallback_constant_product]
  by_cases hz : r_in = 0 ∨ r_out = 0
  · rw [if_pos hz]
    exact Or.inl rfl
  · rw [if_neg hz]
    push_neg at hz
    have hro : 0 < r_out := Nat.pos_of_ne_zero hz.2
    have hamt : 0 < amt := Nat.pos_of_ne_zero h0
    have hden : amt ≤ satAdd r_in amt := le_min (Nat.le_add_left _ _) hM
    have hden0 : satAdd r_in amt ≠ 0 := by omega
    rw [if_neg hden0]
    right
    have h2 : div_fixed (mul_fixed amt r_out) (satAdd r_in amt) ≤ r_out := by
      calc div_fixed (mul_fixed amt r_out) (satAdd r_in amt)
          ≤ mul_fixed amt r_out * PRECISION / satAdd r_in amt := div_fixed_le _ _
        _ ≤ (amt * r_out / PRECISION) * PRECISION / satAdd r_in amt :=
            Nat.div_le_div_right (Nat.mul_le_mul_right _ (mul_fixed_le_exact amt r_out))
        _ ≤ amt * r_out / satAdd r_in amt :=
            Nat.div_le_div_right (Nat.div_mul_le_self _ _)
        _ ≤ amt * r_out / amt := Nat.div_le_div_left hden hamt
        _ = r_out := Nat.mul_div_cancel_left r_out hamt
    calc mul_fixed (div_fixed (mul_fixed amt r_out) (satAdd r_in amt)) 95 / 100
        ≤ div_fixed (mul_fixed amt r_out) (satAdd r_in amt) * 95 / PRECISION / 100 :=
          Nat.div_le_div_right (mul_fixed_le_exact _ 95)
      _ = div_fixed (mul_fixed amt r_out) (satAdd r_in amt) * 95 / (PRECISION * 100) :=
          Nat.div_div_eq_div_mul _ _ _
      _ ≤ r_out * 95 / (PRECISION * 100) :=
          Nat.div_le_div_right (Nat.mul_le_mul_right _ h2)
      _ < r_out := by
          rw [Nat.div_lt_iff_lt_mul (by decide : 0 < PRECISION * 100)]
          exact mul_lt_mul_of_pos_left (by decide : (95 : Nat) < PRECISION * 100) hro

theorem validate_inputs_amt_facts (rs : List Nat) (i_in i_out amt s rb : Nat)
    (h : validate_inputs rs i_in i_out amt s rb = true) :
    amt ≠ 0 ∧ amt ≤ U256MAX := by
  unfold validate_inputs at h
  split_ifs at h with h1 h2 h3 h4 h5 h6 h7
  refine ⟨h4, ?_⟩
  have hle : amt ≤ mul_fixed (rs.foldl max 0) 10 := Nat.not_lt.mp h7
  exact le_trans hle (le_trans (mul_fixed_le _ _) (Nat.div_le_self _ _))

/-- Claim C10: for every input whatsoever, the value returned by
`solveTorusInvariant` is either `0` or strictly below the pre-trade
output-token reserve: every `some` result of the Newton loop passes
`validate_final_result` (which rejects `y = 0` and `y ≥ r_out`) or the
gradient-descent bounds check (strictly inside `(0, r_out)`), and the
constant-product fallback's haircut quote is provably below `r_out`, so no
caller can be quoted an amount that reaches the output reserve. -/
theorem claim_C10_quote_bounded_by_out_reserve
    (s ri rb kb i_in i_out amt : Nat) (rs : List Nat) :
    solveTorusInvariant s ri rb kb i_in i_out amt rs = 0 ∨
    solveTorusInvariant s ri rb kb i_in i_out amt rs < rs.getD i_out 0 := by
  unfold solveTorusInvariant
  by_cases hv : validate_inputs rs i_in i_out amt s rb = true
  · rw [if_neg (by simp [hv])]
    obtain ⟨hamt0, hamtM⟩ := validate_inputs_amt_facts rs i_in i_out amt s rb hv
    cases hinv : compute_torus_invariant_fixed s ri rb kb rs with
    | error e => simp [hinv]
    | ok inv =>
      simp only [hinv]
      by_cases h0 : inv = 0
      · rw [if_pos h0]
        exact Or.inl rfl
      · rw [if_neg h0]
        cases hg : calculate_initial_guess amt (rs.getD i_in 0) (rs.getD i_out 0) with
        | none => simp [hg]
        | some g =>
          simp only [hg]
          cases hn : solve_newton_with_fallbacks g rs i_in i_out amt s ri rb kb inv
              (rs.getD i_out 0) with
          | some v =>
            simp only [hn]
            right
            simp only [solve_newton_with_fallbacks] at hn
            exact newtonLoop_some_lt rs i_in i_out amt s ri rb kb inv _ _ _ _ _ _ _ _ hn
          | none =>
            simp only [hn]
            exact fallback_constant_product_lt amt _ _ hamt0 hamtM
  · left
    rw [if_pos (by simpa using hv)]

end Orbital
